import Mathlib

/-!
Verification of the Spotify playlist manager (src/main.py) against its
natural-language specification.

The source is a single Python class `SpotifyPlaylistManager` with three
operations of interest:

* `get_playlist_info` (lines 14-41): collects, per playlist track, the primary
  artist's genre list and the track's danceability/energy audio features.
* `get_average_playlist_info` (lines 43-62): tallies genres with
  `Counter(...).most_common(5)` and averages the features with `np.mean`.
* `update_playlist` (lines 64-89): filters matcher output against the current
  playlist, truncates to `max_tracks`, and fully replaces the playlist.
* `get_matching_tracks` (lines 91-126): the expanding-tolerance search - a
  `while` loop that repeatedly queries the catalog, keeps candidates whose
  features lie within the current tolerance band, and widens both radii by 0.1
  until at least `min_tracks` results have accumulated.

Modelling conventions:
* Python floats are modelled as exact rationals (`ℚ`).
* The remote catalog collaborators are modelled as values: the search query in
  `get_matching_tracks` is built only from `target_genres` (line 112), so it is
  identical in every round; the result page of `self.sp.search` is therefore a
  fixed list `page : List Track`, and `self.sp.audio_features` is the features
  already stored on each `Track`.
* The unbounded `while` loop is given fuel: `none` means the loop was still
  running when the fuel ran out, so `∀ fuel, run = none` is divergence.
* `np.mean([])` evaluates to NaN (with only a RuntimeWarning); NaN is modelled
  as `none` in an `Option ℚ`.
* CPython's `list(set(xs))` enumerates in an unspecified (hash) order; it is
  modelled as first-occurrence-order deduplication.  No claim settled below
  depends on the enumeration order of a set: the counting collapse exhibited
  for the genre tally is order-independent.
* Python's `sorted(..., key=count, reverse=True)` (inside
  `Counter.most_common`) is a stable descending sort; it is modelled by
  index-tagging the entries and sorting by the strict total order
  (count descending, original position ascending), which produces exactly the
  same list as a stable descending sort.
-/

/-- A candidate track as seen by `get_matching_tracks`: its URI and the two
audio features the tolerance test reads (src/main.py lines 116-119). -/
structure Track where
  uri : String
  danceability : ℚ
  energy : ℚ
deriving DecidableEq

/-- The tolerance-band test of src/main.py lines 117-118:
`target - radius <= feature <= target + radius` for danceability and energy. -/
def inBand (td te rd re : ℚ) (t : Track) : Bool :=
  decide (td - rd ≤ t.danceability) && decide (t.danceability ≤ td + rd) &&
  decide (te - re ≤ t.energy) && decide (t.energy ≤ te + re)

/-- One round of the `for track in results['tracks']['items']` loop
(src/main.py lines 115-119): the URIs of the page's candidates that pass the
current tolerance band, in candidate order. -/
def roundMatches (page : List Track) (td te rd re : ℚ) : List String :=
  (page.filter (fun t => inBand td te rd re t)).map Track.uri

/-- Result of a terminating run of `get_matching_tracks`, together with
observable collaborator activity: `rounds` counts iterations of the `while`
loop (each issues exactly one `self.sp.search` catalog query, line 113) and
`lookups` counts `self.sp.audio_features` calls (one per candidate inspected,
line 116). -/
structure SearchTrace where
  tracks : List String
  rounds : Nat
  lookups : Nat
deriving DecidableEq

/-- Fuel-indexed embedding of the `while len(matching_tracks) < min_tracks`
loop of src/main.py lines 111-123.  State: accumulated `matching_tracks`
(`acc`), `danceability_range` (`rd`), `energy_range` (`re`), plus the two
activity counters.  Per iteration: one catalog query and feature lookups for
the whole page, append the in-band candidates, and if still short of
`min_tracks` widen both radii by 0.1 (lines 121-123).  `none` means the fuel
was exhausted while the loop was still running. -/
def gmt_loop (page : List Track) (td te : ℚ) (min_tracks : Int) :
    Nat → List String → ℚ → ℚ → Nat → Nat → Option SearchTrace
  | 0, acc, _, _, rounds, lookups =>
      if (acc.length : Int) < min_tracks then none
      else some ⟨acc, rounds, lookups⟩
  | fuel + 1, acc, rd, re, rounds, lookups =>
      if (acc.length : Int) < min_tracks then
        let acc' := acc ++ roundMatches page td te rd re
        if (acc'.length : Int) < min_tracks then
          gmt_loop page td te min_tracks fuel acc' (rd + 1/10) (re + 1/10)
            (rounds + 1) (lookups + page.length)
        else
          some ⟨acc', rounds + 1, lookups + page.length⟩
      else some ⟨acc, rounds, lookups⟩

/-- `get_matching_tracks` (src/main.py lines 91-126): both radii start at 0.1
(lines 108-109), the accumulator starts empty (line 105). -/
def get_matching_tracks (page : List Track) (td te : ℚ) (min_tracks : Int)
    (fuel : Nat) : Option SearchTrace :=
  gmt_loop page td te min_tracks fuel [] (1/10) (1/10) 0 0

/-- The tolerance radius used in the (0-indexed) `k`-th round:
0.1 in round 0, widened by 0.1 before each later round. -/
def radiusAt (k : Nat) : ℚ :=
  1/10 + (k : ℚ) * (1/10)

/-- The `matching_tracks` accumulator after `k` complete rounds: the
round-major concatenation of each round's in-band candidates. -/
def accAfter (page : List Track) (td te : ℚ) : Nat → List String
  | 0 => []
  | k + 1 => accAfter page td te k ++ roundMatches page td te (radiusAt k) (radiusAt k)

/-- One playlist item as `get_playlist_info` sees it (src/main.py lines
27-34): the primary artist's genre list and the track's audio features. -/
structure TrackInfo where
  genres : List String
  danceability : ℚ
  energy : ℚ
deriving DecidableEq

/-- The dictionary returned by `get_playlist_info` (src/main.py lines 37-41). -/
structure PlaylistInfo where
  genres : List String
  danceability : List ℚ
  energy : List ℚ
deriving DecidableEq

/-- The dictionary returned by `get_average_playlist_info` (src/main.py lines
58-62).  The mean fields are `Option ℚ`: `none` models NaN, the value
`np.mean` produces on an empty list. -/
structure PlaylistProfile where
  top_genres : List String
  average_danceability : Option ℚ
  average_energy : Option ℚ
deriving DecidableEq

/-- First-occurrence-order deduplication, accumulator of already-seen
elements.  Models CPython's `list(set(xs))` (src/main.py line 38); see the
header note on set enumeration order. -/
def dedupFirstAux (seen : List String) : List String → List String
  | [] => []
  | x :: xs =>
      if seen.contains x then dedupFirstAux seen xs
      else x :: dedupFirstAux (x :: seen) xs

/-- `list(set(xs))`, modelled in first-occurrence order. -/
def dedupFirst (xs : List String) : List String :=
  dedupFirstAux [] xs

/-- `get_playlist_info` (src/main.py lines 14-41): the per-track artist genre
lists are concatenated in track order (line 30: `genres.extend(...)`), then
globally deduplicated at return (line 38: `list(set(genres))`); the feature
lists keep one entry per track in order (lines 33-34). -/
def get_playlist_info (items : List TrackInfo) : PlaylistInfo :=
  { genres := dedupFirst (items.flatMap TrackInfo.genres)
  , danceability := items.map TrackInfo.danceability
  , energy := items.map TrackInfo.energy }

/-- `collections.Counter(gs)` as an association list: distinct elements in
first-insertion order, each with its multiplicity in `gs`. -/
def genre_counts (gs : List String) : List (String × Nat) :=
  (dedupFirst gs).map (fun g => (g, gs.count g))

/-- Tag each entry with its position, making the stable descending sort of
`Counter.most_common` expressible as a strict total order. -/
def withIdx (l : List (String × Nat)) : List ((String × Nat) × Nat) :=
  l.zip (List.range l.length)

/-- Strict order of `most_common`'s stable descending sort on index-tagged
entries: higher count first; equal counts keep original (insertion) order. -/
def rankBefore (a b : (String × Nat) × Nat) : Bool :=
  decide (b.1.2 < a.1.2) || (decide (a.1.2 = b.1.2) && decide (a.2 < b.2))

/-- Insertion step of the ranking sort. -/
def insertRank (a : (String × Nat) × Nat) :
    List ((String × Nat) × Nat) → List ((String × Nat) × Nat)
  | [] => [a]
  | y :: ys => if rankBefore a y then a :: y :: ys else y :: insertRank a ys

/-- Insertion sort by `rankBefore`.  On index-tagged entries (all indices
distinct) this yields exactly the stable descending-by-count sort that
`Counter.most_common` performs. -/
def sortRank : List ((String × Nat) × Nat) → List ((String × Nat) × Nat)
  | [] => []
  | x :: xs => insertRank x (sortRank xs)

/-- `Counter(gs).most_common(n)` (src/main.py line 52-53): entries sorted by
descending count, ties in first-insertion order, truncated to `n`. -/
def most_common (gs : List String) (n : Nat) : List (String × Nat) :=
  ((sortRank (withIdx (genre_counts gs))).map Prod.fst).take n

/-- `np.mean(xs)` over exact rationals.  On an empty list NumPy emits a
RuntimeWarning and evaluates to NaN - modelled as `none`; no exception is
raised. -/
def npMean (xs : List ℚ) : Option ℚ :=
  if xs.isEmpty then none else some (xs.sum / (xs.length : ℚ))

/-- `get_average_playlist_info` (src/main.py lines 43-62): fetches the
playlist info (line 50), ranks its (already deduplicated) genre list with
`Counter(...).most_common(5)` (lines 52-53), and averages the feature lists
with `np.mean` (lines 55-56). -/
def get_average_playlist_info (items : List TrackInfo) : PlaylistProfile :=
  let p := get_playlist_info items
  { top_genres := (most_common p.genres 5).map Prod.fst
  , average_danceability := npMean p.danceability
  , average_energy := npMean p.energy }

/-- Modelled from the spec (section 4.1, steps 1-2), for comparison with the
code's genre ranking: deduplicate each track's genre set per track, flatten
all per-track sets into one multiset, rank labels by descending multiset
frequency (ties in first-encountered order) and take the top 5.  This is what
the code does NOT implement: the code deduplicates globally before counting. -/
def top_genres_spec (items : List TrackInfo) : List String :=
  (most_common (items.flatMap (fun t => dedupFirst t.genres)) 5).map Prod.fst

/-- The counterexample playlist for the genre-ranking claim: one track tagged
pop, two tracks tagged rock. -/
def exC2 : List TrackInfo :=
  [⟨["pop"], 1/2, 1/2⟩, ⟨["rock"], 1/2, 1/2⟩, ⟨["rock"], 1/2, 1/2⟩]

/-- Modelled from the spec (section 4.1, step 1): the genre multiset that the
spec's frequency ranking is defined over - each track's genre set
deduplicated per track, then all per-track sets flattened, so a genre counts
once per carrying track. -/
def genre_multiset (items : List TrackInfo) : List String :=
  items.flatMap (fun t => dedupFirst t.genres)

/-- The failing playlist for the profile-sortedness claim: one track tagged
jazz, two tracks tagged blues. -/
def exC8 : List TrackInfo :=
  [⟨["jazz"], 1/2, 1/2⟩, ⟨["blues"], 1/2, 1/2⟩, ⟨["blues"], 1/2, 1/2⟩]

/-- Line 83 of src/main.py: keep the matcher's URIs that are not already in
the current playlist (duplicates within the matcher output are kept). -/
def filtered_uris (track_uris current_track_uris : List String) : List String :=
  track_uris.filter (fun uri => !current_track_uris.contains uri)

/-- Line 86 of src/main.py: truncate the filtered list to `max_tracks`. -/
def new_track_uris (track_uris current_track_uris : List String)
    (max_tracks : Nat) : List String :=
  (filtered_uris track_uris current_track_uris).take max_tracks

/-- Lines 79-88 of src/main.py: `playlist_replace_items` has full-replace
semantics, so the playlist contents after `update_playlist` are exactly the
filtered, truncated matcher output - prior contents are discarded. -/
def update_playlist_result (track_uris current_track_uris : List String)
    (max_tracks : Nat) : List String :=
  new_track_uris track_uris current_track_uris max_tracks

/-- A round on an empty result page contributes nothing. -/
theorem roundMatches_nil (td te rd re : ℚ) : roundMatches [] td te rd re = [] := rfl

/-- With an empty result page and a positive minimum, the loop never exits:
for every fuel bound the run is still going. -/
theorem gmt_loop_nil_diverges (td te : ℚ) (m : Int) (hm : 1 ≤ m) :
    ∀ (fuel : Nat) (acc : List String), acc = [] →
      ∀ (rd re : ℚ) (rounds lookups : Nat),
        gmt_loop [] td te m fuel acc rd re rounds lookups = none := by
  intro fuel
  induction fuel with
  | zero =>
      intro acc hacc rd re rounds lookups
      subst hacc
      simp only [gmt_loop, List.length_nil, Int.natCast_zero]
      rw [if_pos (by omega)]
  | succ fuel ih =>
      intro acc hacc rd re rounds lookups
      subst hacc
      simp only [gmt_loop, roundMatches_nil, List.append_nil, List.length_nil,
        Int.natCast_zero]
      rw [if_pos (by omega), if_pos (by omega)]
      exact ih [] rfl _ _ _ _

/-- The radius of the first round is 0.1. -/
theorem radiusAt_zero : radiusAt 0 = 1/10 := by
  simp [radiusAt]

/-- Each widening adds exactly 0.1 to the radius. -/
theorem radiusAt_succ (k : Nat) : radiusAt (k + 1) = radiusAt k + 1/10 := by
  simp only [radiusAt, Nat.cast_add, Nat.cast_one]
  ring

/-- Simulation of the loop from the state reached after `k` complete rounds:
a terminating run from there returns an accumulator of the round-major form
`accAfter`, keeps `lookups = rounds * page.length`, never shrinks the round
counter, and exits only once the accumulated length has reached the minimum. -/
theorem gmt_loop_accAfter (page : List Track) (td te : ℚ) (m : Int) :
    ∀ (fuel k : Nat) (r : SearchTrace),
      gmt_loop page td te m fuel (accAfter page td te k) (radiusAt k) (radiusAt k)
        k (k * page.length) = some r →
      r.tracks = accAfter page td te r.rounds ∧
      r.lookups = r.rounds * page.length ∧
      k ≤ r.rounds ∧
      m ≤ (r.tracks.length : Int) := by
  intro fuel
  induction fuel with
  | zero =>
      intro k r h
      simp only [gmt_loop] at h
      split at h
      · exact absurd h (by simp)
      · rename_i hlen
        obtain rfl : (⟨accAfter page td te k, k, k * page.length⟩ : SearchTrace) = r :=
          Option.some.inj h
        refine ⟨rfl, rfl, le_refl k, ?_⟩
        show m ≤ ((accAfter page td te k).length : Int)
        omega
  | succ fuel ih =>
      intro k r h
      simp only [gmt_loop] at h
      split at h
      · rename_i hlen
        have hacc : accAfter page td te k ++ roundMatches page td te (radiusAt k) (radiusAt k)
            = accAfter page td te (k + 1) := rfl
        rw [hacc] at h
        split at h
        · rename_i hlen'
          rw [← radiusAt_succ k] at h
          have hl : k * page.length + page.length = (k + 1) * page.length := by ring
          rw [hl] at h
          obtain ⟨h1, h2, h3, h4⟩ := ih (k + 1) r h
          exact ⟨h1, h2, by omega, h4⟩
        · rename_i hlen'
          obtain rfl : (⟨accAfter page td te (k + 1), k + 1, k * page.length + page.length⟩ :
              SearchTrace) = r := Option.some.inj h
          refine ⟨rfl, ?_, ?_, ?_⟩
          · show k * page.length + page.length = (k + 1) * page.length
            ring
          · show k ≤ k + 1
            omega
          · show m ≤ ((accAfter page td te (k + 1)).length : Int)
            omega
      · rename_i hlen
        obtain rfl : (⟨accAfter page td te k, k, k * page.length⟩ : SearchTrace) = r :=
          Option.some.inj h
        refine ⟨rfl, rfl, le_refl k, ?_⟩
        show m ≤ ((accAfter page td te k).length : Int)
        omega

/-- C1: the claim says the adaptive search is bounded - that even for a
catalog collaborator that never returns any eligible track it stops after a
maximum iteration count or radius and returns partial results with an
insufficient-results signal.  The code has no such bound: with a catalog page
containing no tracks and any requested minimum of at least 1, the `while`
loop of src/main.py lines 111-123 never exits - for every fuel bound the run
is still looping (`none`), so the search diverges instead of signalling. -/
theorem get_matching_tracks_no_bound (td te : ℚ) (m : Int) (hm : 1 ≤ m) (fuel : Nat) :
    get_matching_tracks [] td te m fuel = none :=
  gmt_loop_nil_diverges td te m hm fuel [] rfl (1/10) (1/10) 0 0

/-- Witness for `get_matching_tracks_no_bound` at a concrete input. -/
theorem get_matching_tracks_no_bound_witness :
    get_matching_tracks [] (1/2) (1/2) 1 7 = none :=
  get_matching_tracks_no_bound (1/2) (1/2) 1 (by decide) 7

/-- C10: calling the matching search with `min_tracks ≤ 0` returns the empty
sequence immediately - the `while` condition `len(matching_tracks) < min_tracks`
fails before any round, so zero rounds run, hence zero catalog queries and
zero audio-feature lookups are performed. -/
theorem get_matching_tracks_nonpositive_min (page : List Track) (td te : ℚ)
    (m : Int) (hm : m ≤ 0) (fuel : Nat) :
    get_matching_tracks page td te m fuel = some ⟨[], 0, 0⟩ := by
  have h : ¬ ((([] : List String).length : Int) < m) := by
    simp only [List.length_nil, Int.natCast_zero]
    omega
  cases fuel with
  | zero =>
      simp only [get_matching_tracks, gmt_loop]
      rw [if_neg h]
  | succ fuel =>
      simp only [get_matching_tracks, gmt_loop]
      rw [if_neg h]

/-- Witness for `get_matching_tracks_nonpositive_min` at a concrete input. -/
theorem get_matching_tracks_nonpositive_min_witness :
    get_matching_tracks [⟨("u0"), 1/2, 1/2⟩] (1/2) (1/2) 0 3 = some ⟨[], 0, 0⟩ :=
  get_matching_tracks_nonpositive_min [⟨("u0"), 1/2, 1/2⟩] (1/2) (1/2) 0 (by decide) 3

/-- C5: on normal termination (the fuel-indexed run returns a result), the
returned URI sequence has length at least `min_tracks`, and it is exactly the
round-major concatenation `accAfter` of the per-round in-band candidates -
matches found at tighter tolerance precede matches of later, wider rounds,
and within a round candidates appear in catalog order. -/
theorem get_matching_tracks_length_and_order (page : List Track) (td te : ℚ)
    (m : Int) (fuel : Nat) (r : SearchTrace)
    (h : get_matching_tracks page td te m fuel = some r) :
    m ≤ (r.tracks.length : Int) ∧ r.tracks = accAfter page td te r.rounds := by
  have h0 : gmt_loop page td te m fuel (accAfter page td te 0) (radiusAt 0)
      (radiusAt 0) 0 (0 * page.length) = some r := by
    rw [radiusAt_zero]
    simpa [get_matching_tracks, accAfter, Nat.zero_mul] using h
  obtain ⟨h1, _, _, h4⟩ := gmt_loop_accAfter page td te m fuel 0 r h0
  exact ⟨h4, h1⟩

/-- Concrete one-round run used to witness the matcher soundness theorems. -/
theorem gmt_concrete_run :
    get_matching_tracks [⟨("u1"), 1/2, 1/2⟩] (1/2) (1/2) 1 1 =
      some ⟨[("u1")], 1, 1⟩ := by
  have e1 : inBand (1/2) (1/2) (1/10) (1/10) ⟨("u1"), 1/2, 1/2⟩ = true := by
    norm_num [inBand]
  have e2 : roundMatches [⟨("u1"), 1/2, 1/2⟩] (1/2) (1/2) (1/10) (1/10) = [("u1")] := by
    simp only [roundMatches, List.filter_cons, List.filter_nil, e1, if_true,
      List.map_cons, List.map_nil]
  show gmt_loop [⟨("u1"), 1/2, 1/2⟩] (1/2) (1/2) 1 (0 + 1) [] (1/10) (1/10) 0 0 =
    some ⟨[("u1")], 1, 1⟩
  simp only [gmt_loop, e2]
  norm_num

/-- Witness for `get_matching_tracks_length_and_order` at a concrete input. -/
theorem get_matching_tracks_length_and_order_witness :
    (1 : Int) ≤ (([("u1")] : List String).length : Int) ∧
    ([("u1")] : List String) = accAfter [⟨("u1"), 1/2, 1/2⟩] (1/2) (1/2) 1 :=
  get_matching_tracks_length_and_order [⟨("u1"), 1/2, 1/2⟩] (1/2) (1/2) 1 1
    ⟨[("u1")], 1, 1⟩ gmt_concrete_run

/-- C6: for targets in [0,1] and `min_tracks ≥ 1`, if the fixed catalog page
already contains at least `min_tracks` tracks eligible under the initial 0.1
tolerance band, the search terminates after exactly one round (one catalog
query, one feature lookup per page candidate) and returns exactly the
eligible subset of the page, in candidate order. -/
theorem get_matching_tracks_first_round (page : List Track) (td te : ℚ)
    (m : Int) (fuel : Nat)
    (htd0 : 0 ≤ td) (htd1 : td ≤ 1) (hte0 : 0 ≤ te) (hte1 : te ≤ 1)
    (hm : 1 ≤ m) (hfuel : 1 ≤ fuel)
    (hpool : m ≤ ((roundMatches page td te (1/10) (1/10)).length : Int)) :
    get_matching_tracks page td te m fuel =
      some ⟨roundMatches page td te (1/10) (1/10), 1, page.length⟩ := by
  obtain ⟨f, rfl⟩ : ∃ f, fuel = f + 1 := ⟨fuel - 1, by omega⟩
  simp only [get_matching_tracks, gmt_loop, List.nil_append]
  rw [if_pos (by simp only [List.length_nil, Int.natCast_zero]; omega)]
  rw [if_neg (by omega)]
  simp

/-- Witness for `get_matching_tracks_first_round` at a concrete input. -/
theorem get_matching_tracks_first_round_witness :
    get_matching_tracks [⟨("u1"), 1/2, 1/2⟩] (1/2) (1/2) 1 1 =
      some ⟨roundMatches [⟨("u1"), 1/2, 1/2⟩] (1/2) (1/2) (1/10) (1/10), 1,
        ([⟨("u1"), 1/2, 1/2⟩] : List Track).length⟩ := by
  have hpool : (1 : Int) ≤
      ((roundMatches [⟨("u1"), 1/2, 1/2⟩] (1/2) (1/2) (1/10) (1/10)).length : Int) := by
    have e1 : inBand (1/2) (1/2) (1/10) (1/10) ⟨("u1"), 1/2, 1/2⟩ = true := by
      norm_num [inBand]
    simp only [roundMatches, List.filter_cons, List.filter_nil, e1, if_true,
      List.map_cons, List.map_nil, List.length_cons, List.length_nil]
    omega
  exact get_matching_tracks_first_round [⟨("u1"), 1/2, 1/2⟩] (1/2) (1/2) 1 1
    (by norm_num) (by norm_num) (by norm_num) (by norm_num) (by decide) (by decide) hpool

/-- C7: across successive rounds both radii start at 0.1 and grow by exactly
0.1 per round (hence strictly increase); the accumulated result length is
non-decreasing from round to round; and a run that exits the loop does so
only with at least `min_tracks` accumulated results, the accumulator being
exactly the round-major history `accAfter` of the run's rounds. -/
theorem get_matching_tracks_widening (page : List Track) (td te : ℚ)
    (m : Int) (fuel : Nat) (r : SearchTrace)
    (h : get_matching_tracks page td te m fuel = some r) :
    radiusAt 0 = 1/10 ∧
    (∀ k, radiusAt (k + 1) = radiusAt k + 1/10 ∧ radiusAt k < radiusAt (k + 1)) ∧
    (∀ k, (accAfter page td te k).length ≤ (accAfter page td te (k + 1)).length) ∧
    r.tracks = accAfter page td te r.rounds ∧
    m ≤ (r.tracks.length : Int) := by
  have h0 : gmt_loop page td te m fuel (accAfter page td te 0) (radiusAt 0)
      (radiusAt 0) 0 (0 * page.length) = some r := by
    rw [radiusAt_zero]
    simpa [get_matching_tracks, accAfter, Nat.zero_mul] using h
  obtain ⟨h1, _, _, h4⟩ := gmt_loop_accAfter page td te m fuel 0 r h0
  refine ⟨radiusAt_zero, fun k => ⟨radiusAt_succ k, ?_⟩, fun k => ?_, h1, h4⟩
  · rw [radiusAt_succ k]
    linarith
  · simp only [accAfter, List.length_append]
    omega

/-- Witness for `get_matching_tracks_widening` at a concrete input. -/
theorem get_matching_tracks_widening_witness :
    radiusAt 0 = 1/10 ∧
    (∀ k, radiusAt (k + 1) = radiusAt k + 1/10 ∧ radiusAt k < radiusAt (k + 1)) ∧
    (∀ k, (accAfter [⟨("u1"), 1/2, 1/2⟩] (1/2) (1/2) k).length ≤
      (accAfter [⟨("u1"), 1/2, 1/2⟩] (1/2) (1/2) (k + 1)).length) ∧
    (SearchTrace.mk [("u1")] 1 1).tracks =
      accAfter [⟨("u1"), 1/2, 1/2⟩] (1/2) (1/2) (SearchTrace.mk [("u1")] 1 1).rounds ∧
    (1 : Int) ≤ ((SearchTrace.mk [("u1")] 1 1).tracks.length : Int) :=
  get_matching_tracks_widening [⟨("u1"), 1/2, 1/2⟩] (1/2) (1/2) 1 1
    ⟨[("u1")], 1, 1⟩ gmt_concrete_run

/-- C4: `update_playlist` replaces the playlist with the subsequence of the
matcher output `M` obtained by removing every URI already in the current
playlist `P`, truncated to at most `max_tracks` elements in order (a full
replace - prior contents are discarded); in particular for the current
playlist {A,B,C}, matcher output [A,D,E,B,F] and `max_tracks = 3` the
replacement list is exactly [D,E,F]. -/
theorem update_playlist_filter_truncate_replace (M P : List String) (max_tracks : Nat) :
    update_playlist_result M P max_tracks =
      (M.filter (fun u => decide (u ∉ P))).take max_tracks ∧
    (∀ u ∈ update_playlist_result M P max_tracks, u ∉ P) ∧
    (update_playlist_result M P max_tracks).Sublist M ∧
    (update_playlist_result M P max_tracks).length ≤ max_tracks ∧
    update_playlist_result [("A"), ("D"), ("E"), ("B"), ("F")] [("A"), ("B"), ("C")] 3 =
      [("D"), ("E"), ("F")] := by
  have hfun : ∀ x ∈ M, (!P.contains x) = decide (x ∉ P) := by
    intro x _
    by_cases h : x ∈ P <;> simp [h]
  refine ⟨?_, ?_, ?_, ?_, by decide⟩
  · show (M.filter (fun u => !P.contains u)).take max_tracks = _
    rw [List.filter_congr hfun]
  · intro u hu
    have hu' : u ∈ filtered_uris M P := List.mem_of_mem_take hu
    have := (List.mem_filter.mp hu').2
    simpa using this
  · exact (List.take_sublist _ _).trans (List.filter_sublist _)
  · exact List.length_take_le _ _

/-- The current-playlist filter of src/main.py line 83 removes only URIs
present in the current playlist: a URI `u` not in the playlist keeps its full
multiplicity through the filter. -/
theorem filtered_uris_count (P : List String) (u : String) (h : u ∉ P) :
    ∀ M : List String, (filtered_uris M P).count u = M.count u := by
  intro M
  induction M with
  | nil => rfl
  | cons x xs ih =>
      by_cases hx : x ∈ P
      · have hxu : ¬ (x == u) = true := by
          intro hxy
          exact h (by rwa [← eq_of_beq hxy])
        simp only [filtered_uris, List.filter_cons] at *
        rw [show (!P.contains x) = false by simp [hx]]
        simp only [Bool.false_eq_true, if_false, ih, List.count_cons]
        simp [hxu]
      · simp only [filtered_uris, List.filter_cons] at *
        rw [show (!P.contains x) = true by simp [hx]]
        simp only [if_true, List.count_cons, ih]

/-- C9: the duplicate filter of `update_playlist` removes only URIs already
in the current playlist - a URI not in the playlist occurring `k` times in
the matcher output occurs `k` times in the filtered sequence (before
truncation), so the final replacement list can contain repeats, as the
concrete run with matcher output [D,D] shows. -/
theorem update_playlist_filter_keeps_multiplicity (M P : List String) (u : String)
    (h : u ∉ P) :
    (filtered_uris M P).count u = M.count u ∧
    update_playlist_result [("D"), ("D")] [("A")] 5 = [("D"), ("D")] :=
  ⟨filtered_uris_count P u h M, by decide⟩

/-- Witness for `update_playlist_filter_keeps_multiplicity` at a concrete
input. -/
theorem update_playlist_filter_keeps_multiplicity_witness :
    (filtered_uris [("D"), ("D")] [("A")]).count ("D") =
      ([("D"), ("D")] : List String).count ("D") ∧
    update_playlist_result [("D"), ("D")] [("A")] 5 = [("D"), ("D")] :=
  update_playlist_filter_keeps_multiplicity [("D"), ("D")] [("A")] ("D") (by decide)

/-- A ranking-sort comparison that fires guarantees at-least-as-large count. -/
theorem rankBefore_true_le {a y : (String × Nat) × Nat} (h : rankBefore a y = true) :
    y.1.2 ≤ a.1.2 := by
  simp only [rankBefore, Bool.or_eq_true, Bool.and_eq_true, decide_eq_true_eq] at h
  omega

/-- A ranking-sort comparison that fails guarantees at-most-as-large count. -/
theorem rankBefore_false_le {a y : (String × Nat) × Nat} (h : ¬ rankBefore a y = true) :
    a.1.2 ≤ y.1.2 := by
  simp only [rankBefore, Bool.or_eq_true, Bool.and_eq_true, decide_eq_true_eq] at h
  omega

/-- Elements of `insertRank a l` come from `a` or from `l`. -/
theorem mem_insertRank {a x : (String × Nat) × Nat} :
    ∀ {l : List ((String × Nat) × Nat)}, x ∈ insertRank a l → x = a ∨ x ∈ l := by
  intro l
  induction l with
  | nil =>
      intro h
      simp only [insertRank, List.mem_singleton] at h
      exact Or.inl h
  | cons y ys ih =>
      intro h
      simp only [insertRank] at h
      split at h
      · rcases List.mem_cons.mp h with h' | h'
        · exact Or.inl h'
        · exact Or.inr h'
      · rcases List.mem_cons.mp h with h' | h'
        · exact Or.inr (h' ▸ List.mem_cons_self y ys)
        · rcases ih h' with h'' | h''
          · exact Or.inl h''
          · exact Or.inr (List.mem_cons_of_mem y h'')

/-- Inserting preserves the non-increasing-count invariant. -/
theorem pairwise_insertRank {a : (String × Nat) × Nat} :
    ∀ {l : List ((String × Nat) × Nat)},
      l.Pairwise (fun p q => q.1.2 ≤ p.1.2) →
      (insertRank a l).Pairwise (fun p q => q.1.2 ≤ p.1.2) := by
  intro l
  induction l with
  | nil =>
      intro _
      simp [insertRank]
  | cons y ys ih =>
      intro hp
      obtain ⟨hy, hys⟩ := List.pairwise_cons.mp hp
      simp only [insertRank]
      split
      · rename_i hb
        refine List.pairwise_cons.mpr ⟨?_, hp⟩
        intro z hz
        rcases List.mem_cons.mp hz with h' | h'
        · subst h'
          exact rankBefore_true_le hb
        · exact (hy z h').trans (rankBefore_true_le hb)
      · rename_i hb
        refine List.pairwise_cons.mpr ⟨?_, ih hys⟩
        intro z hz
        rcases mem_insertRank hz with h' | h'
        · subst h'
          exact rankBefore_false_le hb
        · exact hy z h'

/-- The ranking sort delivers entries in non-increasing count order. -/
theorem pairwise_sortRank :
    ∀ l : List ((String × Nat) × Nat),
      (sortRank l).Pairwise (fun p q => q.1.2 ≤ p.1.2) := by
  intro l
  induction l with
  | nil => simp [sortRank]
  | cons x xs ih => exact pairwise_insertRank ih

/-- The ranking sort invents no entries. -/
theorem mem_sortRank {x : (String × Nat) × Nat} :
    ∀ {l : List ((String × Nat) × Nat)}, x ∈ sortRank l → x ∈ l := by
  intro l
  induction l with
  | nil =>
      intro h
      simp only [sortRank] at h
      exact absurd h (List.not_mem_nil x)
  | cons y ys ih =>
      intro h
      rcases mem_insertRank h with h' | h'
      · exact h' ▸ List.mem_cons_self y ys
      · exact List.mem_cons_of_mem y (ih h')

/-- `most_common` lists counts in non-increasing order. -/
theorem pairwise_most_common (gs : List String) (n : Nat) :
    (most_common gs n).Pairwise (fun p q : String × Nat => q.2 ≤ p.2) := by
  have h1 := pairwise_sortRank (withIdx (genre_counts gs))
  have h2 : ((sortRank (withIdx (genre_counts gs))).map Prod.fst).Pairwise
      (fun p q : String × Nat => q.2 ≤ p.2) :=
    List.pairwise_map.mpr h1
  exact h2.sublist (List.take_sublist _ _)

/-- Every `most_common` entry carries the genre's multiplicity in the tallied
list. -/
theorem mem_most_common_count {gs : List String} {n : Nat} {x : String × Nat}
    (hx : x ∈ most_common gs n) : x.2 = gs.count x.1 := by
  have hx1 : x ∈ (sortRank (withIdx (genre_counts gs))).map Prod.fst :=
    (List.take_sublist _ _).mem hx
  obtain ⟨⟨p, i⟩, hmem, hfst⟩ := List.mem_map.mp hx1
  have hzip : (p, i) ∈ (genre_counts gs).zip (List.range (genre_counts gs).length) :=
    mem_sortRank hmem
  have hp : p ∈ genre_counts gs := (List.of_mem_zip hzip).1
  obtain ⟨g, _, hg⟩ := List.mem_map.mp hp
  have : x = (g, gs.count g) := by rw [← hfst, ← hg]
  rw [this]

/-- `np.mean` over a non-empty list of values in [0,1] is defined (not NaN)
and lies in [0,1]. -/
theorem npMean_bounds {xs : List ℚ} (hne : xs ≠ []) (h0 : ∀ x ∈ xs, 0 ≤ x)
    (h1 : ∀ x ∈ xs, x ≤ 1) :
    ∃ m, npMean xs = some m ∧ 0 ≤ m ∧ m ≤ 1 := by
  have hlen : 0 < xs.length := List.length_pos.mpr hne
  have hlenQ : (0 : ℚ) < (xs.length : ℚ) := by exact_mod_cast hlen
  refine ⟨xs.sum / (xs.length : ℚ), ?_, ?_, ?_⟩
  · rw [npMean, if_neg]
    intro hcontra
    exact hne (List.isEmpty_iff.mp hcontra)
  · exact div_nonneg (List.sum_nonneg h0) hlenQ.le
  · rw [div_le_one hlenQ]
    calc xs.sum ≤ xs.length • (1 : ℚ) := List.sum_le_card_nsmul xs 1 h1
      _ = (xs.length : ℚ) := by simp

/-- C2: the claim says genres are counted as a per-track multiset - a genre
carried by several distinct tracks counts once per track - and the top genres
are ranked by that multiset frequency.  The code instead deduplicates the
flattened genre list globally (src/main.py line 38, `list(set(genres))`)
before `Counter` counts it (line 52), so every genre's tally is 1 and the
ranking cannot see how many tracks carry a genre.  On a playlist with one pop
track and two rock tracks the code ranks pop before rock (first-encountered
order among the all-equal tallies), while the spec's multiset ranking puts
rock (frequency 2) first: the `Counter.most_common` machinery is inoperative,
contradicting the function's own "top 5 genres" intent. -/
theorem genre_ranking_collapses :
    (get_average_playlist_info exC2).top_genres = [("pop"), ("rock")] ∧
    top_genres_spec exC2 = [("rock"), ("pop")] ∧
    exC2.countP (fun t => t.genres.contains ("rock")) = 2 ∧
    (get_playlist_info exC2).genres.count ("rock") = 1 := by
  refine ⟨?_, ?_, ?_, ?_⟩ <;> decide

/-- C3: the claim (and the spec's error-handling design) require profile
extraction on an empty track sequence to fail or signal explicitly.  The code
does not: `np.mean([])` evaluates to NaN with only a RuntimeWarning, and
`get_average_playlist_info` returns a normal dictionary whose mean fields are
NaN (modelled `none`) and whose top-genre list is empty - no exception, no
explicit error signal. -/
theorem empty_playlist_profile_nan :
    get_average_playlist_info [] = ⟨[], none, none⟩ := by
  decide

/-- C8: the claim says the extracted profile's `top_genres` is sorted by
strictly non-increasing frequency, where frequency (spec section 4.1) is a
genre's per-track multiset frequency - one count per carrying track.  The
code violates this: the global `list(set(genres))` of src/main.py line 38
collapses the tally that `Counter.most_common` sorts by to all ones, so the
output order is merely first-encountered order and ignores how many tracks
carry each genre.  On a playlist with one jazz track and two blues tracks the
code returns [jazz, blues], whose multiset frequencies are 1 then 2 -
strictly increasing - refuting the claimed non-increasing sortedness.  (The
claim's other conjuncts, length at most 5 and means within [0,1], do hold;
the sortedness conjunct is the one the code breaks.) -/
theorem profile_not_sorted_by_frequency :
    (get_average_playlist_info exC8).top_genres = [("jazz"), ("blues")] ∧
    (genre_multiset exC8).count ("jazz") = 1 ∧
    (genre_multiset exC8).count ("blues") = 2 ∧
    ¬ (get_average_playlist_info exC8).top_genres.Pairwise
        (fun a b => (genre_multiset exC8).count b ≤ (genre_multiset exC8).count a) := by
  refine ⟨?_, ?_, ?_, ?_⟩ <;> decide
